import Mathlib

/-!
Verification development for the `youtube-oauth-bridge` repository.

The definitions below are a shallow embedding of the OAuth bridge handlers in
`src/api/auth/youtube.js` (the primary handler, with `src/unnamed/part_003` an
equivalent revision), `src/unnamed/part_000` (the MVP callback revision at
`/api/oauth/callback`), and of the JavaScript runtime primitives those handlers
rely on (`Buffer` base64url and UTF-8 conversion, `JSON.stringify`/`JSON.parse`,
`decodeURIComponent`, `URLSearchParams`, cookie-regex matching, JS truthiness).

Strings are modelled as Lean `String`/`List Char`; bytes as `Nat` values below
256.  Network effects (the token exchange and the channel fetch) are modelled
as oracle inputs (`FetchOutcome`): each outbound `fetch` either throws or
returns a response with an `ok` flag and an optional parsed JSON body (`none`
models `res.json()` throwing on a non-JSON body).  Code paths that can raise an
uncaught JavaScript exception are modelled with an explicit `thrown` outcome.

Modelling fragment notes (documented once, referenced below):
* the JSON parser covers objects whose values are scalars (strings, integer
  numbers, booleans, null), plus top-level scalars; nested composites and
  non-integer numbers are treated as parse failures.  Every payload produced by
  `encodeState` is inside the fragment.
* the base64url decoder is strict (rejects characters outside the alphabet)
  where Node's `Buffer.from(s, 'base64url')` is lenient; both run inside
  `decodeState`'s `try`/`catch`, so each input outside the common fragment
  observably yields `null` either way for the inputs examined here.
-/

namespace OAuthBridge

/-! ### Characters and code points -/

/-- Construct a `Char` from a code point, failing on invalid code points. -/
def mkChar (n : Nat) : Option Char :=
  if n.isValidChar then some (Char.ofNat n) else none

theorem char_toNat_valid (c : Char) : c.toNat.isValidChar := by
  cases c with
  | mk v hv => simpa [Char.toNat, UInt32.isValidChar] using hv

theorem mkChar_toNat (c : Char) : mkChar c.toNat = some c := by
  simp [mkChar, char_toNat_valid c, Char.ofNat_toNat]

theorem char_toNat_lt (c : Char) : c.toNat < 0x110000 := by
  rcases char_toNat_valid c with h | ⟨h1, h2⟩ <;> omega

/-! ### UTF-8 (model of Node `Buffer.from(string)` / `buffer.toString('utf-8')`) -/

/-- UTF-8 encoding of one character, as a list of byte values. -/
def utf8EncodeChar (c : Char) : List Nat :=
  let v := c.toNat
  if v < 0x80 then [v]
  else if v < 0x800 then [0xC0 + v / 64, 0x80 + v % 64]
  else if v < 0x10000 then [0xE0 + v / 4096, 0x80 + v / 64 % 64, 0x80 + v % 64]
  else [0xF0 + v / 262144, 0x80 + v / 4096 % 64, 0x80 + v / 64 % 64, 0x80 + v % 64]

/-- UTF-8 encoding of a character sequence. -/
def utf8Encode (cs : List Char) : List Nat :=
  cs.foldr (fun c acc => utf8EncodeChar c ++ acc) []

theorem utf8Encode_cons (c : Char) (cs : List Char) :
    utf8Encode (c :: cs) = utf8EncodeChar c ++ utf8Encode cs := rfl

theorem utf8EncodeChar_lt256 (c : Char) : ∀ b ∈ utf8EncodeChar c, b < 256 := by
  intro b hb
  have hv : c.toNat < 0x110000 := char_toNat_lt c
  simp only [utf8EncodeChar] at hb
  split at hb
  · simp only [List.mem_singleton] at hb
    omega
  · split at hb
    · simp only [List.mem_cons, List.mem_singleton, List.not_mem_nil, or_false] at hb
      rcases hb with rfl | rfl <;> omega
    · split at hb
      · simp only [List.mem_cons, List.mem_singleton, List.not_mem_nil, or_false] at hb
        rcases hb with rfl | rfl | rfl <;> omega
      · simp only [List.mem_cons, List.mem_singleton, List.not_mem_nil, or_false] at hb
        rcases hb with rfl | rfl | rfl | rfl <;> omega

theorem utf8EncodeChar_ne_nil (c : Char) : utf8EncodeChar c ≠ [] := by
  simp only [utf8EncodeChar]
  split
  · simp
  · split
    · simp
    · split <;> simp

theorem utf8Encode_lt256 (cs : List Char) : ∀ b ∈ utf8Encode cs, b < 256 := by
  induction cs with
  | nil => intro b hb; simp [utf8Encode] at hb
  | cons c cs ih =>
    intro b hb
    rw [utf8Encode_cons] at hb
    rcases List.mem_append.mp hb with h | h
    · exact utf8EncodeChar_lt256 c b h
    · exact ih b h

/-- Whether a byte is a UTF-8 continuation byte. -/
def contB (b : Nat) : Bool := decide (0x80 ≤ b) && decide (b < 0xC0)

/-- Decode one UTF-8-encoded code point from the front of a byte list. -/
def utf8Step : List Nat → Option (Nat × List Nat)
  | [] => none
  | b :: bs =>
    if b < 0x80 then some (b, bs)
    else if b < 0xC0 then none
    else if b < 0xE0 then
      match bs with
      | b2 :: bs2 =>
        if contB b2 then some ((b - 0xC0) * 64 + (b2 - 0x80), bs2) else none
      | [] => none
    else if b < 0xF0 then
      match bs with
      | b2 :: b3 :: bs3 =>
        if contB b2 && contB b3 then
          some ((b - 0xE0) * 4096 + (b2 - 0x80) * 64 + (b3 - 0x80), bs3)
        else none
      | _ => none
    else if b < 0xF8 then
      match bs with
      | b2 :: b3 :: b4 :: bs4 =>
        if contB b2 && contB b3 && contB b4 then
          some ((b - 0xF0) * 262144 + (b2 - 0x80) * 4096 + (b3 - 0x80) * 64 + (b4 - 0x80), bs4)
        else none
      | _ => none
    else none

theorem utf8Step_encodeChar (c : Char) (bs : List Nat) :
    utf8Step (utf8EncodeChar c ++ bs) = some (c.toNat, bs) := by
  have hv : c.toNat < 0x110000 := char_toNat_lt c
  by_cases h1 : c.toNat < 0x80
  · have he : utf8EncodeChar c = [c.toNat] := by simp [utf8EncodeChar, h1]
    rw [he, List.cons_append, List.nil_append, utf8Step.eq_def]
    simp only []
    rw [if_pos h1]
  · by_cases h2 : c.toNat < 0x800
    · have he : utf8EncodeChar c = [0xC0 + c.toNat / 64, 0x80 + c.toNat % 64] := by
        simp [utf8EncodeChar, h1, h2]
      obtain ⟨b1, hb1⟩ : ∃ b1, 0xC0 + c.toNat / 64 = b1 := ⟨_, rfl⟩
      obtain ⟨b2, hb2⟩ : ∃ b2, 0x80 + c.toNat % 64 = b2 := ⟨_, rfl⟩
      rw [he, hb1, hb2, List.cons_append, List.cons_append, List.nil_append, utf8Step.eq_def]
      simp only []
      rw [if_neg (show ¬ b1 < 0x80 by omega), if_neg (show ¬ b1 < 0xC0 by omega),
        if_pos (show b1 < 0xE0 by omega),
        if_pos (show contB b2 = true by
          simp only [contB, Bool.and_eq_true, decide_eq_true_eq]; omega),
        (show (b1 - 0xC0) * 64 + (b2 - 0x80) = c.toNat by omega)]
    · by_cases h3 : c.toNat < 0x10000
      · have he : utf8EncodeChar c =
            [0xE0 + c.toNat / 4096, 0x80 + c.toNat / 64 % 64, 0x80 + c.toNat % 64] := by
          simp [utf8EncodeChar, h1, h2, h3]
        obtain ⟨b1, hb1⟩ : ∃ b1, 0xE0 + c.toNat / 4096 = b1 := ⟨_, rfl⟩
        obtain ⟨b2, hb2⟩ : ∃ b2, 0x80 + c.toNat / 64 % 64 = b2 := ⟨_, rfl⟩
        obtain ⟨b3, hb3⟩ : ∃ b3, 0x80 + c.toNat % 64 = b3 := ⟨_, rfl⟩
        rw [he, hb1, hb2, hb3, List.cons_append, List.cons_append, List.cons_append,
          List.nil_append, utf8Step.eq_def]
        simp only []
        rw [if_neg (show ¬ b1 < 0x80 by omega), if_neg (show ¬ b1 < 0xC0 by omega),
          if_neg (show ¬ b1 < 0xE0 by omega), if_pos (show b1 < 0xF0 by omega),
          if_pos (show (contB b2 && contB b3) = true by
            simp only [contB, Bool.and_eq_true, decide_eq_true_eq]; omega),
          (show (b1 - 0xE0) * 4096 + (b2 - 0x80) * 64 + (b3 - 0x80) = c.toNat by omega)]
      · have he : utf8EncodeChar c = [0xF0 + c.toNat / 262144, 0x80 + c.toNat / 4096 % 64,
            0x80 + c.toNat / 64 % 64, 0x80 + c.toNat % 64] := by
          simp [utf8EncodeChar, h1, h2, h3]
        obtain ⟨b1, hb1⟩ : ∃ b1, 0xF0 + c.toNat / 262144 = b1 := ⟨_, rfl⟩
        obtain ⟨b2, hb2⟩ : ∃ b2, 0x80 + c.toNat / 4096 % 64 = b2 := ⟨_, rfl⟩
        obtain ⟨b3, hb3⟩ : ∃ b3, 0x80 + c.toNat / 64 % 64 = b3 := ⟨_, rfl⟩
        obtain ⟨b4, hb4⟩ : ∃ b4, 0x80 + c.toNat % 64 = b4 := ⟨_, rfl⟩
        rw [he, hb1, hb2, hb3, hb4, List.cons_append, List.cons_append, List.cons_append,
          List.cons_append, List.nil_append, utf8Step.eq_def]
        simp only []
        rw [if_neg (show ¬ b1 < 0x80 by omega), if_neg (show ¬ b1 < 0xC0 by omega),
          if_neg (show ¬ b1 < 0xE0 by omega), if_neg (show ¬ b1 < 0xF0 by omega),
          if_pos (show b1 < 0xF8 by omega),
          if_pos (show (contB b2 && contB b3 && contB b4) = true by
            simp only [contB, Bool.and_eq_true, decide_eq_true_eq]; omega),
          (show (b1 - 0xF0) * 262144 + (b2 - 0x80) * 4096 + (b3 - 0x80) * 64 + (b4 - 0x80)
            = c.toNat by omega)]

theorem utf8Step_length_lt {l : List Nat} {v : Nat} {rest : List Nat}
    (h : utf8Step l = some (v, rest)) : rest.length < l.length := by
  match l with
  | [] => simp [utf8Step] at h
  | b :: bs =>
    rw [utf8Step.eq_def] at h
    simp only [] at h
    split_ifs at h
    · simp only [Option.some.injEq, Prod.mk.injEq] at h
      simp [← h.2]
    · match bs with
      | [] => simp at h
      | b2 :: bs2 =>
        simp only [] at h
        split_ifs at h
        simp only [Option.some.injEq, Prod.mk.injEq] at h
        simp [← h.2]
        omega
    · match bs with
      | [] => simp at h
      | [b2] => simp at h
      | b2 :: b3 :: bs3 =>
        simp only [] at h
        split_ifs at h
        simp only [Option.some.injEq, Prod.mk.injEq] at h
        simp [← h.2]
        omega
    · match bs with
      | [] => simp at h
      | [b2] => simp at h
      | [b2, b3] => simp at h
      | b2 :: b3 :: b4 :: bs4 =>
        simp only [] at h
        split_ifs at h
        simp only [Option.some.injEq, Prod.mk.injEq] at h
        simp [← h.2]
        omega

/-- Fuel-indexed UTF-8 decoder; `utf8Decode` instantiates the fuel with the
input length, which is always sufficient. -/
def utf8DecodeF : Nat → List Nat → Option (List Char)
  | _, [] => some []
  | 0, _ :: _ => none
  | fuel + 1, b :: bs =>
    match utf8Step (b :: bs) with
    | some (v, rest) => (mkChar v).bind fun c => (utf8DecodeF fuel rest).map (c :: ·)
    | none => none

/-- UTF-8 decoding of a byte list back into characters; fails on malformed
input (model of `buffer.toString('utf-8')`, strict variant). -/
def utf8Decode (l : List Nat) : Option (List Char) := utf8DecodeF l.length l

theorem utf8DecodeF_encode (cs : List Char) :
    ∀ fuel, (utf8Encode cs).length ≤ fuel → utf8DecodeF fuel (utf8Encode cs) = some cs := by
  induction cs with
  | nil => intro fuel _; cases fuel <;> rfl
  | cons c cs ih =>
    intro fuel hfuel
    rw [utf8Encode_cons] at hfuel ⊢
    have hne : utf8EncodeChar c ≠ [] := utf8EncodeChar_ne_nil c
    have hlen : 1 ≤ (utf8EncodeChar c).length := by
      cases hcc : utf8EncodeChar c with
      | nil => exact absurd hcc hne
      | cons x xs => simp
    rw [List.length_append] at hfuel
    match hcc : utf8EncodeChar c ++ utf8Encode cs, fuel with
    | [], _ => exact absurd (List.append_eq_nil.mp hcc).1 hne
    | x :: xs, 0 => omega
    | x :: xs, fuel + 1 =>
      rw [← hcc, utf8DecodeF.eq_def]
      match hc2 : utf8EncodeChar c ++ utf8Encode cs with
      | [] => exact absurd (List.append_eq_nil.mp hc2).1 hne
      | y :: ys =>
        simp only []
        rw [← hc2, utf8Step_encodeChar]
        simp [mkChar_toNat, ih fuel (by omega)]

theorem utf8Decode_encode (cs : List Char) : utf8Decode (utf8Encode cs) = some cs :=
  utf8DecodeF_encode cs (utf8Encode cs).length le_rfl

/-! ### base64url (model of Node `buffer.toString('base64url')` /
`Buffer.from(s, 'base64url')`; Node's base64url emits no padding) -/

/-- The base64url alphabet: index 0–63 to character. -/
def b64Char (n : Nat) : Char :=
  if n < 26 then Char.ofNat (65 + n)
  else if n < 52 then Char.ofNat (97 + (n - 26))
  else if n < 62 then Char.ofNat (48 + (n - 52))
  else if n = 62 then '-' else '_'

/-- The base64url alphabet: character back to index 0–63. -/
def b64Index (c : Char) : Option Nat :=
  let v := c.toNat
  if 65 ≤ v ∧ v ≤ 90 then some (v - 65)
  else if 97 ≤ v ∧ v ≤ 122 then some (26 + (v - 97))
  else if 48 ≤ v ∧ v ≤ 57 then some (52 + (v - 48))
  else if v = 45 then some 62
  else if v = 95 then some 63
  else none

theorem b64Index_b64Char : ∀ n, n < 64 → b64Index (b64Char n) = some n := by decide

/-- base64url encoding (unpadded) of a byte list. -/
def b64urlEncode : List Nat → List Char
  | [] => []
  | [b1] => [b64Char (b1 / 4), b64Char (b1 % 4 * 16)]
  | [b1, b2] => [b64Char (b1 / 4), b64Char (b1 % 4 * 16 + b2 / 16), b64Char (b2 % 16 * 4)]
  | b1 :: b2 :: b3 :: rest =>
    b64Char (b1 / 4) :: b64Char (b1 % 4 * 16 + b2 / 16) :: b64Char (b2 % 16 * 4 + b3 / 64) ::
      b64Char (b3 % 64) :: b64urlEncode rest

/-- base64url decoding (unpadded, strict) of a character list. -/
def b64urlDecode : List Char → Option (List Nat)
  | [] => some []
  | [c1, c2] => do
      let n1 ← b64Index c1
      let n2 ← b64Index c2
      pure [n1 * 4 + n2 / 16]
  | [c1, c2, c3] => do
      let n1 ← b64Index c1
      let n2 ← b64Index c2
      let n3 ← b64Index c3
      pure [n1 * 4 + n2 / 16, n2 % 16 * 16 + n3 / 4]
  | c1 :: c2 :: c3 :: c4 :: rest => do
      let n1 ← b64Index c1
      let n2 ← b64Index c2
      let n3 ← b64Index c3
      let n4 ← b64Index c4
      let bs ← b64urlDecode rest
      pure ((n1 * 4 + n2 / 16) :: (n2 % 16 * 16 + n3 / 4) :: (n3 % 4 * 64 + n4) :: bs)
  | _ => none

theorem b64urlDecode_encode :
    ∀ bs : List Nat, (∀ b ∈ bs, b < 256) → b64urlDecode (b64urlEncode bs) = some bs
  | [], _ => rfl
  | [b1], h => by
    have hb1 : b1 < 256 := h b1 (by simp)
    rw [b64urlEncode, b64urlDecode,
      b64Index_b64Char _ (by omega), b64Index_b64Char _ (by omega)]
    simp only [Option.bind_eq_bind, Option.some_bind, Option.pure_def, Option.some.injEq,
      List.cons.injEq, and_true]
    omega
  | [b1, b2], h => by
    have hb1 : b1 < 256 := h b1 (by simp)
    have hb2 : b2 < 256 := h b2 (by simp)
    rw [b64urlEncode, b64urlDecode,
      b64Index_b64Char _ (by omega), b64Index_b64Char _ (by omega),
      b64Index_b64Char _ (by omega)]
    simp only [Option.bind_eq_bind, Option.some_bind, Option.pure_def, Option.some.injEq,
      List.cons.injEq, and_true]
    omega
  | b1 :: b2 :: b3 :: r :: rest, h => by
    have hb1 : b1 < 256 := h b1 (by simp)
    have hb2 : b2 < 256 := h b2 (by simp)
    have hb3 : b3 < 256 := h b3 (by simp)
    have hrest : ∀ b ∈ r :: rest, b < 256 := fun b hb => h b (by simp at hb ⊢; tauto)
    rw [b64urlEncode, b64urlDecode,
      b64Index_b64Char _ (by omega), b64Index_b64Char _ (by omega),
      b64Index_b64Char _ (by omega), b64Index_b64Char _ (by omega),
      b64urlDecode_encode (r :: rest) hrest]
    simp only [Option.bind_eq_bind, Option.some_bind, Option.pure_def, Option.some.injEq,
      List.cons.injEq, and_true, and_self]
    omega
  | [b1, b2, b3], h => by
    have hb1 : b1 < 256 := h b1 (by simp)
    have hb2 : b2 < 256 := h b2 (by simp)
    have hb3 : b3 < 256 := h b3 (by simp)
    rw [b64urlEncode, b64urlDecode,
      b64Index_b64Char _ (by omega), b64Index_b64Char _ (by omega),
      b64Index_b64Char _ (by omega), b64Index_b64Char _ (by omega)]
    simp only [Option.bind_eq_bind, Option.some_bind, Option.pure_def, b64urlDecode,
      Option.some.injEq, List.cons.injEq, and_true]
    omega

/-! ### JavaScript values, truthiness, and JSON (model of `JSON.stringify` /
`JSON.parse` on the fragment described in the header) -/

/-- JavaScript values as observed by the handlers (including `undefined`). -/
inductive JSValue where
  | jundef
  | jnull
  | jbool (b : Bool)
  | jnum (n : Int)
  | jstr (s : String)
  | jarr (elems : List JSValue)
  | jobj (members : List (String × JSValue))
deriving Repr

/-- JavaScript truthiness. -/
def jsTruthy : JSValue → Bool
  | .jundef => false
  | .jnull => false
  | .jbool b => b
  | .jnum n => decide (n ≠ 0)
  | .jstr s => !s.isEmpty
  | .jarr _ => true
  | .jobj _ => true

/-- JavaScript member access `v.k`, total model: `undefined` for absent members
and for access on non-objects.  (Real JS throws on `null`/`undefined` bases;
every such access in the embedded handlers is either inside a `try` that maps
it to the same observable result or guarded by a truthiness check, as noted at
each use site.)  Duplicate keys resolve to the last occurrence, as in JS. -/
def jsGetD : JSValue → String → JSValue
  | .jobj ms, k =>
    match ms.reverse.find? (fun kv => kv.1 == k) with
    | some kv => kv.2
    | none => .jundef
  | _, _ => .jundef

mutual

/-- JavaScript `String(v)` coercion (array elements `null`/`undefined` render
as empty, as in JS `Array.prototype.toString`). -/
def jsToString : JSValue → String
  | .jundef => "undefined"
  | .jnull => "null"
  | .jbool true => "true"
  | .jbool false => "false"
  | .jnum n => toString n
  | .jstr s => s
  | .jarr l => String.intercalate "," (jsToStringElems l)
  | .jobj _ => "[object Object]"

/-- Array-element stringification for `jsToString`. -/
def jsToStringElems : List JSValue → List String
  | [] => []
  | JSValue.jnull :: es => "" :: jsToStringElems es
  | JSValue.jundef :: es => "" :: jsToStringElems es
  | e :: es => jsToString e :: jsToStringElems es

end

/-- Risky characters written via code points to keep source scanning simple. -/
def dquoteC : Char := Char.ofNat 34

def bslashC : Char := Char.ofNat 92

def lbraceC : Char := Char.ofNat 123

def rbraceC : Char := Char.ofNat 125

/-- Lowercase hex digit for `n < 16`. -/
def hexDigitL (n : Nat) : Char :=
  if n < 10 then Char.ofNat (48 + n) else Char.ofNat (87 + n)

/-- Hex digit value (either case). -/
def hexVal (c : Char) : Option Nat :=
  let v := c.toNat
  if 48 ≤ v ∧ v ≤ 57 then some (v - 48)
  else if 97 ≤ v ∧ v ≤ 102 then some (v - 87)
  else if 65 ≤ v ∧ v ≤ 70 then some (v - 55)
  else none

/-- `JSON.stringify` escaping of one string character. -/
def jsonQuoteChar (c : Char) : List Char :=
  if c = dquoteC then [bslashC, dquoteC]
  else if c = bslashC then [bslashC, bslashC]
  else if c.toNat < 0x20 then
    if c.toNat = 8 then [bslashC, 'b']
    else if c.toNat = 9 then [bslashC, 't']
    else if c.toNat = 10 then [bslashC, 'n']
    else if c.toNat = 12 then [bslashC, 'f']
    else if c.toNat = 13 then [bslashC, 'r']
    else [bslashC, 'u', '0', '0', hexDigitL (c.toNat / 16), hexDigitL (c.toNat % 16)]
  else [c]

/-- Body of a `JSON.stringify`-quoted string (without the delimiters). -/
def quoteBody (s : List Char) : List Char :=
  s.foldr (fun c acc => jsonQuoteChar c ++ acc) []

/-- A `JSON.stringify`-quoted string, with delimiters. -/
def jsonQuote (s : List Char) : List Char :=
  dquoteC :: quoteBody s ++ [dquoteC]

def isWsChar (c : Char) : Bool :=
  c = ' ' || c = Char.ofNat 9 || c = Char.ofNat 10 || c = Char.ofNat 13

def skipWs (l : List Char) : List Char := l.dropWhile isWsChar

/-- JSON string-escape resolution for a single `\x` escape. -/
def escChar (c : Char) : Option Char :=
  if c = dquoteC then some dquoteC
  else if c = bslashC then some bslashC
  else if c = '/' then some '/'
  else if c = 'b' then some (Char.ofNat 8)
  else if c = 'f' then some (Char.ofNat 12)
  else if c = 'n' then some (Char.ofNat 10)
  else if c = 'r' then some (Char.ofNat 13)
  else if c = 't' then some (Char.ofNat 9)
  else none

/-- One step of JSON string-body parsing: `some (none, rest)` on the closing
quote, `some (some c, rest)` after consuming one character. -/
def strStep : List Char → Option (Option Char × List Char)
  | [] => none
  | c :: rest =>
    if c = dquoteC then some (none, rest)
    else if c = bslashC then strEsc rest
    else if 0x20 ≤ c.toNat then some (some c, rest)
    else none
where
  strEsc : List Char → Option (Option Char × List Char)
  | [] => none
  | e :: rest =>
    if e = 'u' then
      match rest with
      | h1 :: h2 :: h3 :: h4 :: rest2 =>
        match hexVal h1, hexVal h2, hexVal h3, hexVal h4 with
        | some v1, some v2, some v3, some v4 =>
          let v := ((v1 * 16 + v2) * 16 + v3) * 16 + v4
          if 0xD800 ≤ v ∧ v < 0xE000 then none
          else
            match mkChar v with
            | some ch => some (some ch, rest2)
            | none => none
        | _, _, _, _ => none
      | _ => none
    else (escChar e).map fun ch => (some ch, rest)

/-- Fuel-indexed JSON string-body loop; the callers pass the input length,
which is always sufficient fuel (each step consumes at least one character). -/
def strLoopF : Nat → List Char → Option (List Char × List Char)
  | 0, _ => none
  | fuel + 1, l =>
    match strStep l with
    | some (none, rest) => some ([], rest)
    | some (some c, rest) => (strLoopF fuel rest).map fun p => (c :: p.1, p.2)
    | none => none

def listStartsWith : List Char → List Char → Bool
  | _, [] => true
  | [], _ :: _ => false
  | c :: cs, p :: ps => c == p && listStartsWith cs ps

def isDigit (c : Char) : Bool := decide (48 ≤ c.toNat) && decide (c.toNat ≤ 57)

def natOfDigits (ds : List Char) : Nat :=
  ds.foldl (fun acc d => acc * 10 + (d.toNat - 48)) 0

/-- Parse one JSON scalar (string, integer number, `true`, `false`, `null`). -/
def parseScalar (l : List Char) : Option (JSValue × List Char) :=
  match l with
  | [] => none
  | c :: rest =>
    if c = dquoteC then
      (strLoopF rest.length rest).map fun p => (JSValue.jstr (String.mk p.1), p.2)
    else if c = '-' then
      let ds := rest.takeWhile isDigit
      if ds.isEmpty then none
      else some (JSValue.jnum (-(natOfDigits ds : Int)), rest.drop ds.length)
    else if isDigit c then
      let ds := l.takeWhile isDigit
      some (JSValue.jnum (natOfDigits ds : Int), l.drop ds.length)
    else if listStartsWith l "true".data then some (JSValue.jbool true, l.drop 4)
    else if listStartsWith l "false".data then some (JSValue.jbool false, l.drop 5)
    else if listStartsWith l "null".data then some (JSValue.jnull, l.drop 4)
    else none

/-- Continuation after one object member: closing brace or a comma. -/
inductive MemTail where
  | done (rest : List Char)
  | more (rest : List Char)

/-- Parse one `"key": value` member plus its terminator (non-recursive). -/
def parseMember1 (l : List Char) : Option ((String × JSValue) × MemTail) :=
  match skipWs l with
  | [] => none
  | c :: rest =>
    if c = dquoteC then
      match strLoopF rest.length rest with
      | some (key, r1) =>
        match skipWs r1 with
        | [] => none
        | c2 :: r2 =>
          if c2 = ':' then
            match parseScalar (skipWs r2) with
            | some (v, r3) =>
              match skipWs r3 with
              | [] => none
              | c3 :: r4 =>
                if c3 = rbraceC then some ((String.mk key, v), MemTail.done r4)
                else if c3 = ',' then some ((String.mk key, v), MemTail.more r4)
                else none
            | none => none
          else none
      | none => none
    else none

/-- Fuel-indexed member-list parser (fuel bounds the number of members). -/
def parseMembersF : Nat → List Char → Option (List (String × JSValue) × List Char)
  | 0, _ => none
  | fuel + 1, l =>
    match parseMember1 l with
    | some (kv, MemTail.done rest) => some ([kv], rest)
    | some (kv, MemTail.more rest) =>
      (parseMembersF fuel rest).map fun p => (kv :: p.1, p.2)
    | none => none

/-- `JSON.parse` on the fragment described in the file header. -/
def jsonParse (s : List Char) : Option JSValue :=
  match skipWs s with
  | [] => none
  | c :: rest =>
    if c = lbraceC then
      match skipWs rest with
      | [] => none
      | d :: rest2 =>
        if d = rbraceC then
          if (skipWs rest2).isEmpty then some (JSValue.jobj []) else none
        else
          match parseMembersF (rest.length + 1) rest with
          | some (ms, r) => if (skipWs r).isEmpty then some (JSValue.jobj ms) else none
          | none => none
    else
      match parseScalar (c :: rest) with
      | some (v, r) => if (skipWs r).isEmpty then some v else none
      | none => none

/-! ### JSON round-trip lemmas -/

theorem hexVal_hexDigitL : ∀ n, n < 16 → hexVal (hexDigitL n) = some n := by decide

theorem strStep_cons (c : Char) (rest : List Char) :
    strStep (c :: rest) =
      (if c = dquoteC then some (none, rest)
       else if c = bslashC then strStep.strEsc rest
       else if 0x20 ≤ c.toNat then some (some c, rest)
       else none) := rfl

theorem strEsc_cons (e : Char) (rest : List Char) :
    strStep.strEsc (e :: rest) =
      (if e = 'u' then
        match rest with
        | h1 :: h2 :: h3 :: h4 :: rest2 =>
          match hexVal h1, hexVal h2, hexVal h3, hexVal h4 with
          | some v1, some v2, some v3, some v4 =>
            let v := ((v1 * 16 + v2) * 16 + v3) * 16 + v4
            if 0xD800 ≤ v ∧ v < 0xE000 then none
            else
              match mkChar v with
              | some ch => some (some ch, rest2)
              | none => none
          | _, _, _, _ => none
        | _ => none
      else (escChar e).map fun ch => (some ch, rest)) := rfl

theorem strStep_quoteChar (c : Char) (tail : List Char) :
    strStep (jsonQuoteChar c ++ tail) = some (some c, tail) := by
  by_cases h1 : c = dquoteC
  · subst h1
    rw [show jsonQuoteChar dquoteC = [bslashC, dquoteC] by rfl]
    rw [List.cons_append, List.cons_append, List.nil_append, strStep_cons,
      if_neg (by decide), if_pos rfl, strEsc_cons, if_neg (by decide)]
    rfl
  · by_cases h2 : c = bslashC
    · subst h2
      rw [show jsonQuoteChar bslashC = [bslashC, bslashC] by rfl]
      rw [List.cons_append, List.cons_append, List.nil_append, strStep_cons,
        if_neg (by decide), if_pos rfl, strEsc_cons, if_neg (by decide)]
      rfl
    · by_cases h3 : c.toNat < 0x20
      · have hd : ¬ c = dquoteC := h1
        have hb : ¬ c = bslashC := h2
        by_cases he8 : c.toNat = 8
        · rw [show jsonQuoteChar c = [bslashC, 'b'] by
            simp [jsonQuoteChar, h1, h2, h3, he8]]
          rw [List.cons_append, List.cons_append, List.nil_append, strStep_cons,
            if_neg (by decide), if_pos rfl, strEsc_cons, if_neg (by decide)]
          rw [show escChar 'b' = some (Char.ofNat 8) by rfl]
          rw [show Char.ofNat 8 = c by rw [← he8, Char.ofNat_toNat]]
          rfl
        · by_cases he9 : c.toNat = 9
          · rw [show jsonQuoteChar c = [bslashC, 't'] by
              simp [jsonQuoteChar, h1, h2, h3, he8, he9]]
            rw [List.cons_append, List.cons_append, List.nil_append, strStep_cons,
              if_neg (by decide), if_pos rfl, strEsc_cons, if_neg (by decide)]
            rw [show escChar 't' = some (Char.ofNat 9) by rfl]
            rw [show Char.ofNat 9 = c by rw [← he9, Char.ofNat_toNat]]
            rfl
          · by_cases he10 : c.toNat = 10
            · rw [show jsonQuoteChar c = [bslashC, 'n'] by
                simp [jsonQuoteChar, h1, h2, h3, he8, he9, he10]]
              rw [List.cons_append, List.cons_append, List.nil_append, strStep_cons,
                if_neg (by decide), if_pos rfl, strEsc_cons, if_neg (by decide)]
              rw [show escChar 'n' = some (Char.ofNat 10) by rfl]
              rw [show Char.ofNat 10 = c by rw [← he10, Char.ofNat_toNat]]
              rfl
            · by_cases he12 : c.toNat = 12
              · rw [show jsonQuoteChar c = [bslashC, 'f'] by
                  simp [jsonQuoteChar, h1, h2, h3, he8, he9, he10, he12]]
                rw [List.cons_append, List.cons_append, List.nil_append, strStep_cons,
                  if_neg (by decide), if_pos rfl, strEsc_cons, if_neg (by decide)]
                rw [show escChar 'f' = some (Char.ofNat 12) by rfl]
                rw [show Char.ofNat 12 = c by rw [← he12, Char.ofNat_toNat]]
                rfl
              · by_cases he13 : c.toNat = 13
                · rw [show jsonQuoteChar c = [bslashC, 'r'] by
                    simp [jsonQuoteChar, h1, h2, h3, he8, he9, he10, he12, he13]]
                  rw [List.cons_append, List.cons_append, List.nil_append, strStep_cons,
                    if_neg (by decide), if_pos rfl, strEsc_cons, if_neg (by decide)]
                  rw [show escChar 'r' = some (Char.ofNat 13) by rfl]
                  rw [show Char.ofNat 13 = c by rw [← he13, Char.ofNat_toNat]]
                  rfl
                · rw [show jsonQuoteChar c = [bslashC, 'u', '0', '0',
                      hexDigitL (c.toNat / 16), hexDigitL (c.toNat % 16)] by
                    simp [jsonQuoteChar, h1, h2, h3, he8, he9, he10, he12, he13]]
                  rw [List.cons_append, List.cons_append, List.cons_append,
                    List.cons_append, List.cons_append, List.cons_append,
                    List.nil_append, strStep_cons,
                    if_neg (by decide), if_pos rfl, strEsc_cons, if_pos rfl]
                  simp only []
                  rw [show hexVal '0' = some 0 by rfl,
                    hexVal_hexDigitL (c.toNat / 16) (by omega),
                    hexVal_hexDigitL (c.toNat % 16) (by omega)]
                  simp only []
                  rw [if_neg (by omega),
                    show ((0 * 16 + 0) * 16 + c.toNat / 16) * 16 + c.toNat % 16 = c.toNat by omega,
                    mkChar_toNat]
      · rw [show jsonQuoteChar c = [c] by simp [jsonQuoteChar, h1, h2, h3]]
        rw [List.cons_append, List.nil_append, strStep_cons,
          if_neg h1, if_neg h2, if_pos (by omega)]

theorem quoteBody_cons (c : Char) (s : List Char) :
    quoteBody (c :: s) = jsonQuoteChar c ++ quoteBody s := rfl

theorem jsonQuoteChar_length_pos (c : Char) : 1 ≤ (jsonQuoteChar c).length := by
  simp only [jsonQuoteChar]
  split
  · simp
  · split
    · simp
    · split
      · split
        · simp
        · split
          · simp
          · split
            · simp
            · split
              · simp
              · split <;> simp
      · simp

theorem quoteBody_length (s : List Char) : s.length ≤ (quoteBody s).length := by
  induction s with
  | nil => simp [quoteBody]
  | cons c s ih =>
    rw [quoteBody_cons, List.length_append, List.length_cons]
    have := jsonQuoteChar_length_pos c
    omega

theorem strLoopF_quoteBody (s : List Char) :
    ∀ fuel rest, s.length + 1 ≤ fuel →
      strLoopF fuel (quoteBody s ++ dquoteC :: rest) = some (s, rest) := by
  induction s with
  | nil =>
    intro fuel rest hfuel
    match fuel with
    | f + 1 =>
      show strLoopF (f + 1) (dquoteC :: rest) = some ([], rest)
      rw [strLoopF, strStep_cons, if_pos rfl]
  | cons c s ih =>
    intro fuel rest hfuel
    match fuel with
    | f + 1 =>
      rw [quoteBody_cons, List.append_assoc, strLoopF, strStep_quoteChar]
      simp only []
      rw [ih f rest (by simp only [List.length_cons] at hfuel; omega)]
      rfl

theorem parseScalar_quoted (s rest : List Char) :
    parseScalar (jsonQuote s ++ rest) = some (JSValue.jstr (String.mk s), rest) := by
  have hshape : jsonQuote s ++ rest = dquoteC :: (quoteBody s ++ dquoteC :: rest) := by
    simp [jsonQuote, List.append_assoc]
  rw [hshape, parseScalar, if_pos rfl]
  have hlen : s.length + 1 ≤ (quoteBody s ++ dquoteC :: rest).length := by
    rw [List.length_append, List.length_cons]
    have := quoteBody_length s
    omega
  rw [strLoopF_quoteBody s _ rest hlen]
  rfl

theorem skipWs_cons_not {c : Char} (l : List Char) (h : isWsChar c = false) :
    skipWs (c :: l) = c :: l := by
  simp [skipWs, List.dropWhile_cons, h]


theorem parseMember1_str (k v : List Char) (e : Char) (rest : List Char)
    (he : isWsChar e = false) :
    parseMember1 (jsonQuote k ++ ':' :: (jsonQuote v ++ e :: rest)) =
      (if e = rbraceC then
        some ((String.mk k, JSValue.jstr (String.mk v)), MemTail.done rest)
       else if e = ',' then
        some ((String.mk k, JSValue.jstr (String.mk v)), MemTail.more rest)
       else none) := by
  have hshape : jsonQuote k ++ ':' :: (jsonQuote v ++ e :: rest)
      = dquoteC :: (quoteBody k ++ dquoteC :: (':' :: (jsonQuote v ++ e :: rest))) := by
    simp [jsonQuote, List.append_assoc]
  unfold parseMember1
  rw [hshape, skipWs_cons_not _ (by decide)]
  simp only []
  rw [if_true]
  have hlen : k.length + 1
      ≤ (quoteBody k ++ dquoteC :: (':' :: (jsonQuote v ++ e :: rest))).length := by
    rw [List.length_append, List.length_cons]
    have := quoteBody_length k
    omega
  rw [strLoopF_quoteBody k _ _ hlen]
  simp only []
  rw [skipWs_cons_not _ (by decide)]
  simp only []
  rw [if_true]
  have hshape2 : jsonQuote v ++ e :: rest
      = dquoteC :: (quoteBody v ++ dquoteC :: (e :: rest)) := by
    simp [jsonQuote, List.append_assoc]
  rw [show skipWs (jsonQuote v ++ e :: rest) = jsonQuote v ++ e :: rest by
    rw [hshape2, skipWs_cons_not _ (by decide)]]
  rw [parseScalar_quoted]
  simp only []
  rw [skipWs_cons_not _ he]

theorem parseMembersF_statePayload (rk r ck c : List Char) (rest : List Char) :
    ∀ fuel, 2 ≤ fuel →
      parseMembersF fuel
        (jsonQuote rk ++ ':' :: (jsonQuote r ++
          ',' :: (jsonQuote ck ++ ':' :: (jsonQuote c ++ rbraceC :: rest))))
      = some ([(String.mk rk, JSValue.jstr (String.mk r)),
               (String.mk ck, JSValue.jstr (String.mk c))], rest) := by
  intro fuel hfuel
  obtain ⟨f, rfl⟩ : ∃ f, fuel = f + 2 := ⟨fuel - 2, by omega⟩
  rw [show f + 2 = (f + 1) + 1 by rfl, parseMembersF,
    parseMember1_str rk r ',' _ (by decide), if_neg (by decide), if_pos rfl]
  simp only []
  rw [parseMembersF, parseMember1_str ck c rbraceC _ (by decide), if_pos rfl]
  rfl

/-! ### The state codec (`encodeState` / `decodeState`,
from `src/api/auth/youtube.js` lines 50–69) -/

/-- `JSON.stringify({ redirect_uri: redirectUri, csrf: csrfToken })`:
the exact character sequence produced by the source payload construction. -/
def stringifyStatePayload (redirectUri csrfToken : String) : List Char :=
  lbraceC :: (jsonQuote "redirect_uri".data ++ ':' :: (jsonQuote redirectUri.data ++
    ',' :: (jsonQuote "csrf".data ++ ':' :: (jsonQuote csrfToken.data ++ [rbraceC]))))

/-- `encodeState` (youtube.js 50–53): serialize the payload and base64url it. -/
def encodeState (redirectUri csrfToken : String) : String :=
  String.mk (b64urlEncode (utf8Encode (stringifyStatePayload redirectUri csrfToken)))

/-- `decodeState` (youtube.js 58–69).  Every step of the real function runs in
a `try` whose `catch` returns `null`: the base64url/UTF-8 steps (Node decodes
leniently; strict failure here coincides with `null` observably, see header),
the `JSON.parse` throw, and the member accesses (`parsed.redirect_uri` on a
`null` parse result throws in JS; both routes end at `null`/`none`).  Returns
the parsed value only when both fields are truthy, as in the source. -/
def decodeState (state : String) : Option JSValue :=
  match b64urlDecode state.data with
  | none => none
  | some bytes =>
    match utf8Decode bytes with
    | none => none
    | some payload =>
      match jsonParse payload with
      | none => none
      | some parsed =>
        if jsTruthy (jsGetD parsed "redirect_uri") && jsTruthy (jsGetD parsed "csrf")
        then some parsed else none

theorem jsonParse_statePayload (r c : String) :
    jsonParse (stringifyStatePayload r c) =
      some (JSValue.jobj [("redirect_uri", JSValue.jstr r), ("csrf", JSValue.jstr c)]) := by
  unfold jsonParse stringifyStatePayload
  rw [skipWs_cons_not _ (by decide)]
  simp only []
  rw [if_true]
  have hshape : jsonQuote "redirect_uri".data ++ ':' :: (jsonQuote r.data ++
      ',' :: (jsonQuote "csrf".data ++ ':' :: (jsonQuote c.data ++ [rbraceC])))
      = dquoteC :: (quoteBody "redirect_uri".data ++ dquoteC :: (':' :: (jsonQuote r.data ++
        ',' :: (jsonQuote "csrf".data ++ ':' :: (jsonQuote c.data ++ [rbraceC]))))) := by
    simp [jsonQuote, List.append_assoc]
  rw [show skipWs (jsonQuote "redirect_uri".data ++ ':' :: (jsonQuote r.data ++
      ',' :: (jsonQuote "csrf".data ++ ':' :: (jsonQuote c.data ++ [rbraceC]))))
      = jsonQuote "redirect_uri".data ++ ':' :: (jsonQuote r.data ++
        ',' :: (jsonQuote "csrf".data ++ ':' :: (jsonQuote c.data ++ [rbraceC]))) by
    rw [hshape, skipWs_cons_not _ (by decide)]]
  rw [hshape]
  simp only []
  rw [if_neg (by decide), ← hshape]
  rw [parseMembersF_statePayload "redirect_uri".data r.data "csrf".data c.data []
    _ (by rw [hshape]; simp [List.length_cons])]
  simp only [skipWs, List.dropWhile_nil, List.isEmpty_nil, if_true]

theorem decodeState_encodeState (r c : String) :
    decodeState (encodeState r c) =
      (if jsTruthy (JSValue.jstr r) && jsTruthy (JSValue.jstr c) then
        some (JSValue.jobj [("redirect_uri", JSValue.jstr r), ("csrf", JSValue.jstr c)])
       else none) := by
  unfold decodeState encodeState
  rw [show (String.mk (b64urlEncode (utf8Encode (stringifyStatePayload r c)))).data
      = b64urlEncode (utf8Encode (stringifyStatePayload r c)) by rfl]
  rw [b64urlDecode_encode _ (utf8Encode_lt256 _)]
  simp only []
  rw [utf8Decode_encode]
  simp only []
  rw [jsonParse_statePayload]
  simp only []
  rw [show jsGetD (JSValue.jobj [("redirect_uri", JSValue.jstr r), ("csrf", JSValue.jstr c)])
      "redirect_uri" = JSValue.jstr r by rfl]
  rw [show jsGetD (JSValue.jobj [("redirect_uri", JSValue.jstr r), ("csrf", JSValue.jstr c)])
      "csrf" = JSValue.jstr c by rfl]


/-! ### `decodeURIComponent` and cookie parsing
(`getCookieValue`, youtube.js 335–342) -/

/-- Outcome of a JavaScript computation that can throw. -/
inductive JsOut (A : Type) where
  | value (a : A)
  | thrown

/-- Maximal run of `%XX` escape groups at the front of the input, as bytes.
`none` models the `URIError` thrown on a malformed escape. -/
def pctBytes : List Char → Option (List Nat × List Char)
  | c :: h1 :: h2 :: rest =>
    if c = '%' then
      (hexVal h1).bind fun v1 =>
        (hexVal h2).bind fun v2 =>
          (pctBytes rest).map fun p => ((v1 * 16 + v2) :: p.1, p.2)
    else some ([], c :: h1 :: h2 :: rest)
  | l => if l.headD ' ' = '%' then none else some ([], l)

/-- Fuel-indexed body of `decodeURIComponent`; callers pass the input length,
which is always sufficient fuel. -/
def percentDecodeF : Nat → List Char → Option (List Char)
  | _, [] => some []
  | 0, _ :: _ => none
  | fuel + 1, c :: rest =>
    if c = '%' then
      match pctBytes (c :: rest) with
      | some (bs, r) =>
        match utf8Decode bs with
        | some cs => (percentDecodeF fuel r).map (cs ++ ·)
        | none => none
      | none => none
    else (percentDecodeF fuel rest).map (c :: ·)

/-- `decodeURIComponent`: percent-escape groups decode as UTF-8 byte runs;
`none` models the `URIError` throw. -/
def percentDecode (l : List Char) : Option (List Char) := percentDecodeF l.length l

/-- The regex scan of `(^| )name=([^;]+)`: at each position whose predecessor
is the string start or a space, try `name=` followed by a maximal nonempty
run of non-semicolon characters; on a zero-length run the scan continues at
the next position, as the regex engine does. -/
def cookieScan (name : List Char) : Bool → List Char → Option (List Char)
  | _, [] => none
  | atB, c :: rest =>
    if atB && listStartsWith (c :: rest) (name ++ ['=']) then
      let cap := ((c :: rest).drop (name.length + 1)).takeWhile (fun x => x ≠ ';')
      if cap.isEmpty then cookieScan name (c = ' ') rest
      else some cap
    else cookieScan name (c = ' ') rest

/-- `getCookieValue` (youtube.js 335–342): regex match over
`req.headers.cookie || ''`, then `decodeURIComponent` on the capture.  The
`decodeURIComponent` call can throw a `URIError`, surfaced as `thrown`. -/
def getCookieValue (cookieHeader : Option String) (name : String) : JsOut (Option String) :=
  let cookies := match cookieHeader with
    | some s => s
    | none => ""
  match cookieScan name.data true cookies.data with
  | none => JsOut.value none
  | some cap =>
    match percentDecode cap with
    | some dec => JsOut.value (some (String.mk dec))
    | none => JsOut.thrown

/-! ### `URLSearchParams` serialization -/

/-- Uppercase hex digit for `n < 16`. -/
def hexDigitU (n : Nat) : Char :=
  if n < 10 then Char.ofNat (48 + n) else Char.ofNat (55 + n)

/-- One byte under `application/x-www-form-urlencoded` serialization. -/
def formEncodeByte (b : Nat) : List Char :=
  if (48 ≤ b ∧ b ≤ 57) ∨ (65 ≤ b ∧ b ≤ 90) ∨ (97 ≤ b ∧ b ≤ 122)
      ∨ b = 42 ∨ b = 45 ∨ b = 46 ∨ b = 95 then
    [Char.ofNat b]
  else if b = 32 then ['+']
  else ['%', hexDigitU (b / 16), hexDigitU (b % 16)]

/-- Form-urlencoding of a string (UTF-8 bytes, then per-byte escaping). -/
def formUrlEncodeL (s : List Char) : List Char :=
  (utf8Encode s).foldr (fun b acc => formEncodeByte b ++ acc) []

def serializeParam (kv : String × String) : List Char :=
  formUrlEncodeL kv.1.data ++ '=' :: formUrlEncodeL kv.2.data

def serializeParamsL : List (String × String) → List Char
  | [] => []
  | [kv] => serializeParam kv
  | kv :: rest => serializeParam kv ++ '&' :: serializeParamsL rest

/-- `new URLSearchParams({...}).toString()`. -/
def serializeParams (ps : List (String × String)) : String :=
  String.mk (serializeParamsL ps)

/-- The redirect-URL template `` `${uri}?${params.toString()}` `` used at
youtube.js 280 and 316: the base URI, a literal question mark, and the
serialized parameters. -/
def buildRedirectUrl (uri : String) (ps : List (String × String)) : String :=
  uri ++ "?" ++ serializeParams ps

/-! ### The handler embedding (`src/api/auth/youtube.js`) -/

/-- Outcome of one outbound `fetch`: a throw, or a response with an `ok` flag
and an optional parsed JSON body (`none` models `res.json()` throwing). -/
inductive FetchOutcome where
  | throw
  | resp (ok : Bool) (jsonBody : Option JSValue)

/-- Oracle for the two outbound network calls of the callback path. -/
structure CallbackWorld where
  tokenFetch : FetchOutcome
  channelFetch : FetchOutcome

/-- Environment configuration (`process.env`) plus the `Math.random` nonce. -/
structure Config where
  clientId : Option String
  clientSecret : Option String
  defaultRedirectUri : Option String
  nonce : String

/-- The request fields the handler reads (`req.query` destructuring fields as
optional strings; array-valued query parameters are outside the model). -/
structure Request where
  method : String
  code : Option String
  state : Option String
  error : Option String
  redirect_uri : Option String
  scope : Option String
  cookie : Option String
  xfProto : Option String
  xfHost : Option String
  host : Option String

/-- The observable response (`Set-Cookie` headers are not modelled; no claim
mentions them).  `thrown` is an exception escaping the handler: the platform
then produces an error page, not a redirect. -/
inductive HandlerResult where
  | redirect (status : Nat) (url : String)
  | json (status : Nat) (body : String)
  | page (status : Nat) (text : String)
  | ok200
  | thrown
deriving Repr, DecidableEq

/-- JS truthiness of an optional string (`undefined` and `''` are falsy). -/
def truthyOpt : Option String → Bool
  | some s => !s.isEmpty
  | none => false

/-- JS `x || fb` for an optional string `x` and string fallback. -/
def orElseOpt (x : Option String) (fb : String) : String :=
  match x with
  | some s => if s.isEmpty then fb else s
  | none => fb

/-- The hardcoded fallback of youtube.js 31–32. -/
def defaultAppCallbackUri : String :=
  "https://insights-growth-trends.deploypad.app/oauth/callback"

/-- `FALLBACK_REDIRECT_URI = process.env.DEFAULT_REDIRECT_URI || <hardcoded>`. -/
def fallbackRedirectUri (cfg : Config) : String :=
  orElseOpt cfg.defaultRedirectUri defaultAppCallbackUri

/-- `decodedState?.redirect_uri || cookieRedirectUri || FALLBACK_REDIRECT_URI`
(youtube.js 194): the success-path resolver.  String coercion of a truthy
non-string field happens where the template literal would coerce it. -/
def resolveAppCallbackUri (decoded : Option JSValue) (cookieRedirectUri : Option String)
    (fb : String) : String :=
  match decoded with
  | some v =>
    if jsTruthy (jsGetD v "redirect_uri") then jsToString (jsGetD v "redirect_uri")
    else orElseOpt cookieRedirectUri fb
  | none => orElseOpt cookieRedirectUri fb

/-- `decodedState?.redirect_uri || redirect_uri || FALLBACK_REDIRECT_URI`
(youtube.js 99): the error-path resolver — its middle alternative is the
`redirect_uri` query parameter, not the cookie. -/
def resolveErrorRedirect (decoded : Option JSValue) (redirectParam : Option String)
    (fb : String) : String :=
  match decoded with
  | some v =>
    if jsTruthy (jsGetD v "redirect_uri") then jsToString (jsGetD v "redirect_uri")
    else orElseOpt redirectParam fb
  | none => orElseOpt redirectParam fb

/-- `redirectWithError` (youtube.js 297–321): clears cookies (not modelled),
serializes `{error, error_description}`, and 302-redirects to
`` `${redirectUri || FALLBACK_REDIRECT_URI}?${params}` ``. -/
def redirectWithError (redirectUri errorCode errorDescription : String) (fb : String) :
    HandlerResult :=
  let finalUri := if redirectUri.isEmpty then fb else redirectUri
  HandlerResult.redirect 302 (buildRedirectUrl finalUri
    [("error", errorCode), ("error_description", errorDescription)])

/-- `state ? decodeState(state) : null` (youtube.js 98 and 188). -/
def decodedStateOf (state : Option String) : Option JSValue :=
  match state with
  | some s => if s.isEmpty then none else decodeState s
  | none => none

/-- `channelData.items?.[0]` (youtube.js 252) on the modelled values: the
first array element, else `undefined`. -/
def jsFirstElem : JSValue → JSValue
  | JSValue.jarr (x :: _) => x
  | _ => JSValue.jundef

/-- `handleCallback` (youtube.js 179–291).  The redirect-URI resolution
(lines 188–197, including the cookie read whose `decodeURIComponent` can
throw) happens before the `try`; everything after it is inside the `try`
whose `catch` produces the `server_error` redirect.  Plain member accesses
(`channel.id` etc.) are guarded by the preceding `if (!channel)` check. -/
def handleCallback (cfg : Config) (w : CallbackWorld) (req : Request) : HandlerResult :=
  let decodedState := decodedStateOf req.state
  match getCookieValue req.cookie "oauth_redirect_uri" with
  | JsOut.thrown => HandlerResult.thrown
  | JsOut.value cookieRedirectUri =>
    let fb := fallbackRedirectUri cfg
    let appCallbackUri := resolveAppCallbackUri decodedState cookieRedirectUri fb
    match w.tokenFetch with
    | FetchOutcome.throw =>
      redirectWithError appCallbackUri "server_error" "An unexpected error occurred" fb
    | FetchOutcome.resp tokOk tokBody =>
      if !tokOk then
        redirectWithError appCallbackUri "token_exchange_failed"
          "Failed to complete authorization" fb
      else
        match tokBody with
        | none =>
          redirectWithError appCallbackUri "server_error" "An unexpected error occurred" fb
        | some tokenData =>
          if !(jsTruthy (jsGetD tokenData "access_token")) then
            redirectWithError appCallbackUri "no_access_token" "No access token received" fb
          else
            match w.channelFetch with
            | FetchOutcome.throw =>
              redirectWithError appCallbackUri "server_error" "An unexpected error occurred" fb
            | FetchOutcome.resp chOk chBody =>
              if !chOk then
                redirectWithError appCallbackUri "channel_fetch_failed"
                  "Failed to fetch channel information" fb
              else
                match chBody with
                | none =>
                  redirectWithError appCallbackUri "server_error"
                    "An unexpected error occurred" fb
                | some channelData =>
                  let channel := jsFirstElem (jsGetD channelData "items")
                  if !(jsTruthy channel) then
                    redirectWithError appCallbackUri "no_channel"
                      "No YouTube channel found for this account" fb
                  else
                    let snippet := jsGetD channel "snippet"
                    let titleV := jsGetD snippet "title"
                    let urlV := jsGetD (jsGetD (jsGetD snippet "thumbnails") "default") "url"
                    HandlerResult.redirect 302 (buildRedirectUrl appCallbackUri
                      [("success", "true"),
                       ("channel_id", jsToString (jsGetD channel "id")),
                       ("channel_title",
                         if jsTruthy titleV then jsToString titleV else "YouTube Channel"),
                       ("channel_thumbnail", if jsTruthy urlV then jsToString urlV else "")])

def googleAuthUrlBase : String := "https://accounts.google.com/o/oauth2/v2/auth"

def defaultScopes : String :=
  String.intercalate " "
    ["https://www.googleapis.com/auth/youtube.readonly",
     "https://www.googleapis.com/auth/yt-analytics.readonly"]

/-- `getHandlerUrl` (youtube.js 326–330); an absent host renders as the
string `undefined` in the template literal, as in JS. -/
def getHandlerUrl (req : Request) : String :=
  (if truthyOpt req.xfProto then (req.xfProto.getD "") else "https") ++ "://" ++
    (if truthyOpt req.xfHost then (req.xfHost.getD "")
     else match req.host with
       | some s => s
       | none => "undefined") ++ "/api/auth/youtube"

/-- `initiateOAuth` (youtube.js 117–173); `Set-Cookie` not modelled. -/
def initiateOAuth (cfg : Config) (req : Request) : HandlerResult :=
  if !truthyOpt cfg.clientId || !truthyOpt cfg.clientSecret then
    HandlerResult.json 500
      "OAuth not configured. Missing GOOGLE_CLIENT_ID or GOOGLE_CLIENT_SECRET."
  else
    let finalRedirectUri := orElseOpt req.redirect_uri (fallbackRedirectUri cfg)
    let csrfToken := orElseOpt req.state cfg.nonce
    HandlerResult.redirect 302 (buildRedirectUrl googleAuthUrlBase
      [("client_id", cfg.clientId.getD ""), ("redirect_uri", getHandlerUrl req),
       ("response_type", "code"), ("scope", orElseOpt req.scope defaultScopes),
       ("state", encodeState finalRedirectUri csrfToken),
       ("access_type", "offline"), ("prompt", "consent")])

/-- The exported handler (youtube.js 71–111): CORS preflight, method gate,
then `error` (truthiness-checked first), then `code`, else initiate. -/
def handler (cfg : Config) (w : CallbackWorld) (req : Request) : HandlerResult :=
  if req.method = "OPTIONS" then HandlerResult.ok200
  else if req.method ≠ "GET" then HandlerResult.json 405 "Method not allowed"
  else if truthyOpt req.error then
    redirectWithError
      (resolveErrorRedirect (decodedStateOf req.state) req.redirect_uri
        (fallbackRedirectUri cfg))
      (match req.error with | some e => e | none => "")
      "OAuth was denied or failed" (fallbackRedirectUri cfg)
  else if truthyOpt req.code then handleCallback cfg w req
  else initiateOAuth cfg req

/-! ### The MVP callback revision (`src/unnamed/part_000`) -/

/-- The template-literal body sent by `src/unnamed/part_000` on success: it
interpolates the received authorization code into the page text. -/
def mvpCallbackBody (code : String) : String :=
  "\n    OAuth completed successfully.\n\n    Authorization code received:\n    " ++ code ++
    "\n\n    You can close this window.\n  "

/-- The `src/unnamed/part_000` handler for its callback path: 400 on a falsy
`code`, otherwise a 200 text page embedding the code.  Never a redirect. -/
def mvpCallbackHandler (code : Option String) : HandlerResult :=
  match code with
  | none => HandlerResult.page 400 "Missing authorization code"
  | some c =>
    if c.isEmpty then HandlerResult.page 400 "Missing authorization code"
    else HandlerResult.page 200 (mvpCallbackBody c)

/-! ### The token store -/

/-- Modelled from the spec: the repository contains no token-store
implementation under `src/` (the bridge never persists tokens); the
`ChannelCredential` record follows §3 of the spec. -/
structure ChannelCredential where
  accountId : String
  title : String
  thumbnailUrl : String
  accessToken : String
  refreshToken : String
  tokenExpiresAt : Nat
deriving DecidableEq, Repr

/-- Modelled from the spec: the token store keyed by account id. -/
def TokenStore : Type := String → Option ChannelCredential

/-- Modelled from the spec: `upsert(accountId, credential)` — §4.6: keyed
insert-or-overwrite, last write wins, no merge of partial fields. -/
def upsert (store : TokenStore) (accountId : String) (cred : ChannelCredential) :
    TokenStore :=
  fun k => if k = accountId then some cred else store k

/-- The empty token store. -/
def emptyStore : TokenStore := fun _ => none


/-! ### Shared auxiliary lemmas for the claims -/

/-- Whether a handler result is an HTTP redirect. -/
def HandlerResult.isRedirect : HandlerResult → Bool
  | HandlerResult.redirect _ _ => true
  | _ => false

theorem isEmpty_false_of_ne {s : String} (h : s ≠ "") : s.isEmpty = false := by
  rw [Bool.eq_false_iff, ne_eq, String.isEmpty_iff]
  exact h

set_option maxRecDepth 4000 in
theorem qmark_notin_formEncodeByte : ∀ b, b < 256 → Char.ofNat 63 ∉ formEncodeByte b := by
  decide

theorem qmark_notin_byteFold (bs : List Nat) (hbs : ∀ b ∈ bs, b < 256) :
    Char.ofNat 63 ∉ bs.foldr (fun b acc => formEncodeByte b ++ acc) [] := by
  induction bs with
  | nil => simp
  | cons b bs ih =>
    simp only [List.foldr_cons, List.mem_append]
    rintro (h | h)
    · exact qmark_notin_formEncodeByte b (hbs b (by simp)) h
    · exact ih (fun x hx => hbs x (by simp [hx])) h

theorem qmark_notin_formUrlEncodeL (s : List Char) :
    Char.ofNat 63 ∉ formUrlEncodeL s :=
  qmark_notin_byteFold (utf8Encode s) (utf8Encode_lt256 s)

theorem qmark_notin_serializeParam (kv : String × String) :
    Char.ofNat 63 ∉ serializeParam kv := by
  simp only [serializeParam, List.mem_append, List.mem_cons]
  rintro (h | h | h)
  · exact qmark_notin_formUrlEncodeL _ h
  · exact absurd h (by decide)
  · exact qmark_notin_formUrlEncodeL _ h

theorem qmark_notin_serializeParamsL :
    ∀ ps : List (String × String), Char.ofNat 63 ∉ serializeParamsL ps
  | [] => by simp [serializeParamsL]
  | [kv] => by
    simp only [serializeParamsL]
    exact qmark_notin_serializeParam kv
  | kv :: kv2 :: rest => by
    simp only [serializeParamsL, List.mem_append, List.mem_cons]
    rintro (h | h | h)
    · exact qmark_notin_serializeParam kv h
    · exact absurd h (by decide)
    · exact qmark_notin_serializeParamsL (kv2 :: rest) h

theorem count_qmark_buildRedirectUrl (uri : String) (ps : List (String × String)) :
    ((buildRedirectUrl uri ps).data.count '?') = uri.data.count '?' + 1 := by
  have h1 : (buildRedirectUrl uri ps).data
      = uri.data ++ '?' :: (serializeParams ps).data := by
    simp [buildRedirectUrl, String.data_append]
  rw [h1, List.count_append]
  have h2 : (serializeParams ps).data.count '?' = 0 := by
    rw [List.count_eq_zero]
    exact qmark_notin_serializeParamsL ps
  simp [h2, List.count_cons]

/-! ### Concrete fixtures used by the claim theorems -/

/-- A configured environment: both OAuth credentials present, no
`DEFAULT_REDIRECT_URI` override. -/
def cfgStd : Config :=
  { clientId := some "cid", clientSecret := some "sec", defaultRedirectUri := none,
    nonce := "nonce1" }

/-- A world where the token exchange responds non-2xx. -/
def wTokenFail : CallbackWorld :=
  { tokenFetch := FetchOutcome.resp false none, channelFetch := FetchOutcome.resp false none }

/-- A world where the token exchange throws. -/
def wTokenThrow : CallbackWorld :=
  { tokenFetch := FetchOutcome.throw, channelFetch := FetchOutcome.throw }

/-- Token response body holding only an access token — no `refresh_token`. -/
def tokBodyNoRefresh : JSValue := JSValue.jobj [("access_token", JSValue.jstr "at")]

/-- Token response body holding an access token and a refresh token. -/
def tokBodyWithRefresh : JSValue :=
  JSValue.jobj [("access_token", JSValue.jstr "at"), ("refresh_token", JSValue.jstr "rt")]

/-- Channel response body with one channel `UC123` / `Demo Channel`. -/
def chanBodyStd : JSValue :=
  JSValue.jobj [("items", JSValue.jarr [JSValue.jobj [("id", JSValue.jstr "UC123"),
    ("snippet", JSValue.jobj [("title", JSValue.jstr "Demo Channel"),
      ("thumbnails", JSValue.jobj [("default", JSValue.jobj
        [("url", JSValue.jstr "https://t.example/x.png")])])])]])]

/-- A world where exchange and fetch both succeed (no refresh token). -/
def wSuccessNoRefresh : CallbackWorld :=
  { tokenFetch := FetchOutcome.resp true (some tokBodyNoRefresh),
    channelFetch := FetchOutcome.resp true (some chanBodyStd) }

/-- A world identical to `wSuccessNoRefresh` except the token body also
carries a refresh token. -/
def wSuccessWithRefresh : CallbackWorld :=
  { tokenFetch := FetchOutcome.resp true (some tokBodyWithRefresh),
    channelFetch := FetchOutcome.resp true (some chanBodyStd) }

/-- CALLBACK_SUCCESS request whose `oauth_redirect_uri` cookie holds a
malformed percent-escape (a bare `%`). -/
def reqBadCookie : Request :=
  { method := "GET", code := some "abc", state := none, error := none,
    redirect_uri := none, scope := none, cookie := some "oauth_redirect_uri=%",
    xfProto := none, xfHost := none, host := none }

/-- CALLBACK_SUCCESS request whose cookie holds the percent-encoded URI
`https://b.example/cb`. -/
def reqCookieB : Request :=
  { method := "GET", code := some "abc", state := none, error := none,
    redirect_uri := none, scope := none,
    cookie := some "oauth_redirect_uri=https%3A%2F%2Fb.example%2Fcb",
    xfProto := none, xfHost := none, host := none }

/-- CALLBACK_ERROR request (`error=access_denied`), no state, no
`redirect_uri` query parameter, cookie holding `https://b.example/cb`. -/
def reqErrorWithCookie : Request :=
  { method := "GET", code := none, state := none, error := some "access_denied",
    redirect_uri := none, scope := none,
    cookie := some "oauth_redirect_uri=https%3A%2F%2Fb.example%2Fcb",
    xfProto := none, xfHost := none, host := none }

/-- GET request carrying both `error=` (present, empty value) and `code`. -/
def reqEmptyErrorWithCode : Request :=
  { method := "GET", code := some "abc", state := none, error := some "",
    redirect_uri := none, scope := none, cookie := none,
    xfProto := none, xfHost := none, host := none }

/-- GET request carrying `error=access_denied` and `code` together. -/
def reqErrorAndCode : Request :=
  { method := "GET", code := some "abc", state := none, error := some "access_denied",
    redirect_uri := none, scope := none, cookie := none,
    xfProto := none, xfHost := none, host := none }

/-- CALLBACK_SUCCESS request with a state encoding `https://app.example/cb`. -/
def reqStateApp : Request :=
  { method := "GET", code := some "abc",
    state := some (encodeState "https://app.example/cb" "t"), error := none,
    redirect_uri := none, scope := none, cookie := none,
    xfProto := none, xfHost := none, host := none }


/-- A first credential for account `UC123`. -/
def credOld : ChannelCredential :=
  { accountId := "UC123", title := "Old Title", thumbnailUrl := "https://t.example/o.png",
    accessToken := "at-old", refreshToken := "rt-old", tokenExpiresAt := 100 }

/-- A second, different credential for account `UC123`. -/
def credNew : ChannelCredential :=
  { accountId := "UC123", title := "New Title", thumbnailUrl := "https://t.example/n.png",
    accessToken := "at-new", refreshToken := "rt-new", tokenExpiresAt := 200 }


/-! ### Claim theorems -/

/-- C1: the claim asserts that no CALLBACK_SUCCESS input can end the callback
path without a redirect.  The code violates this: the cookie read at
youtube.js 191 runs before the `try`, and `decodeURIComponent` throws a
`URIError` on a malformed percent-escape in the `oauth_redirect_uri` cookie,
so the handler ends with an unhandled exception and no redirect (first
conjunct).  The second conjunct shows the caught side of the claim: once the
URI is resolved, an exception inside the `try` (a throwing token fetch) is
converted into the `server_error` redirect to that URI. -/
theorem c1_cookie_decode_escapes_before_try :
    handler cfgStd wTokenFail reqBadCookie = HandlerResult.thrown ∧
    handler cfgStd wTokenThrow reqCookieB = HandlerResult.redirect 302
      "https://b.example/cb?error=server_error&error_description=An+unexpected+error+occurred" :=
  ⟨rfl, rfl⟩

/-- C2: the claim asserts every callback-path response is one of two redirect
shapes with no HTML body and no authorization code in any body.  The
`src/unnamed/part_000` revision of the callback endpoint violates this: on
`code=abc123` it returns HTTP 200 with a text page whose body embeds the
received authorization code verbatim, and no redirect is emitted. -/
theorem c2_mvp_callback_echoes_code_in_body :
    mvpCallbackHandler (some "abc123") = HandlerResult.page 200 (mvpCallbackBody "abc123") ∧
    mvpCallbackBody "abc123" =
      "\n    OAuth completed successfully.\n\n    Authorization code received:\n    " ++
        "abc123" ++ "\n\n    You can close this window.\n  " ∧
    (mvpCallbackHandler (some "abc123")).isRedirect = false :=
  ⟨rfl, rfl, rfl⟩

/-- C3 (counterexample): the round trip is not exact for every pair of
strings — with an empty `redirectUri` the decoder returns `null` (absent)
rather than the encoded pair, because of its truthiness check. -/
theorem c3_roundtrip_fails_on_empty_component :
    decodeState (encodeState "" "x") = none := by
  rw [decodeState_encodeState]
  rfl

/-- C3 (amended): for every pair of non-empty strings — including
`redirectUri` values containing `?`, `&`, `=` — `decodeState ∘ encodeState`
returns exactly the object `{redirect_uri, csrf}` with the original values. -/
theorem c3_roundtrip_exact_nonempty (r c : String) (hr : r ≠ "") (hc : c ≠ "") :
    decodeState (encodeState r c) =
      some (JSValue.jobj [("redirect_uri", JSValue.jstr r), ("csrf", JSValue.jstr c)]) := by
  rw [decodeState_encodeState]
  simp [jsTruthy, isEmpty_false_of_ne hr, isEmpty_false_of_ne hc]

/-- C3 (witness): the amended round trip evaluated on a redirect URI that
contains `?`, `&` and `=`. -/
theorem c3_roundtrip_exact_nonempty_witness :
    decodeState (encodeState "https://app.example/cb?x=1&y=2" "tok") =
      some (JSValue.jobj [("redirect_uri", JSValue.jstr "https://app.example/cb?x=1&y=2"),
        ("csrf", JSValue.jstr "tok")]) :=
  c3_roundtrip_exact_nonempty "https://app.example/cb?x=1&y=2" "tok"
    (by decide) (by decide)

/-- C4: `decodeState` terminates with a value on every input string: either
`none` (absent — the `catch` result and every failed check), or `some` parsed
value whose `redirect_uri` and `csrf` members are both truthy.  No input
reaches an uncaught exception: each throwing step of the source body
(`JSON.parse`, member access on a `null` parse result) is inside the `try`
and is mapped to `none` by the embedding, matching the `catch`. -/
theorem c4_decodeState_total_shape (s : String) :
    decodeState s = none ∨
      ∃ v, decodeState s = some v ∧
        jsTruthy (jsGetD v "redirect_uri") = true ∧ jsTruthy (jsGetD v "csrf") = true := by
  unfold decodeState
  split
  · exact Or.inl rfl
  · split
    · exact Or.inl rfl
    · split
      · exact Or.inl rfl
      · split
        · rename_i h
          right
          rw [Bool.and_eq_true] at h
          exact ⟨_, rfl, h.1, h.2⟩
        · exact Or.inl rfl

/-- C5 (counterexample): on a CALLBACK_ERROR request with no state, the code
resolves the redirect target from the `redirect_uri` query parameter, not
from the cookie: with the `oauth_redirect_uri` cookie holding
`https://b.example/cb` and no query parameter, the error redirect goes to
the configured fallback, not to the cookie value — refuting the claim that
the cookie is second in precedence on both callback paths. -/
theorem c5_error_path_ignores_cookie :
    handler cfgStd wTokenFail reqErrorWithCookie = HandlerResult.redirect 302
      (defaultAppCallbackUri ++ "?error=access_denied&error_description=OAuth+was+denied+or+failed") ∧
    getCookieValue reqErrorWithCookie.cookie "oauth_redirect_uri" =
      JsOut.value (some "https://b.example/cb") ∧
    defaultAppCallbackUri ≠ "https://b.example/cb" :=
  ⟨rfl, rfl, by decide⟩

/-- C5 (amended): the resolution precedence is: on CALLBACK_SUCCESS, decoded
state over cookie over fallback (conjuncts 1–3, the state value winning
regardless of cookie and fallback); on CALLBACK_ERROR, decoded state over the
`redirect_uri` query parameter over fallback — the cookie is not consulted
there (conjuncts 4–6). -/
theorem c5_resolver_precedence :
    (∀ (v : JSValue) (A : String) (cookie : Option String) (fb : String),
      jsGetD v "redirect_uri" = JSValue.jstr A → A ≠ "" →
      resolveAppCallbackUri (some v) cookie fb = A) ∧
    (∀ (B fb : String), B ≠ "" → resolveAppCallbackUri none (some B) fb = B) ∧
    (∀ fb : String, resolveAppCallbackUri none none fb = fb) ∧
    (∀ (v : JSValue) (A : String) (q : Option String) (fb : String),
      jsGetD v "redirect_uri" = JSValue.jstr A → A ≠ "" →
      resolveErrorRedirect (some v) q fb = A) ∧
    (∀ (Q fb : String), Q ≠ "" → resolveErrorRedirect none (some Q) fb = Q) ∧
    (∀ fb : String, resolveErrorRedirect none none fb = fb) := by
  refine ⟨?_, ?_, ?_, ?_, ?_, ?_⟩
  · intro v A cookie fb hA hne
    simp [resolveAppCallbackUri, hA, jsTruthy, isEmpty_false_of_ne hne, jsToString]
  · intro B fb hne
    simp [resolveAppCallbackUri, orElseOpt, isEmpty_false_of_ne hne]
  · intro fb
    simp [resolveAppCallbackUri, orElseOpt]
  · intro v A q fb hA hne
    simp [resolveErrorRedirect, hA, jsTruthy, isEmpty_false_of_ne hne, jsToString]
  · intro Q fb hne
    simp [resolveErrorRedirect, orElseOpt, isEmpty_false_of_ne hne]
  · intro fb
    simp [resolveErrorRedirect, orElseOpt]

/-- C5 (witness): the amended precedence evaluated at concrete URIs. -/
theorem c5_resolver_precedence_witness :
    resolveAppCallbackUri
        (some (JSValue.jobj [("redirect_uri", JSValue.jstr "https://a.example/cb"),
          ("csrf", JSValue.jstr "t")]))
        (some "https://b.example/cb") "https://f.example" = "https://a.example/cb" ∧
    resolveAppCallbackUri none (some "https://b.example/cb") "https://f.example"
      = "https://b.example/cb" ∧
    resolveAppCallbackUri none none "https://f.example" = "https://f.example" ∧
    resolveErrorRedirect none (some "https://q.example/cb") "https://f.example"
      = "https://q.example/cb" :=
  ⟨c5_resolver_precedence.1 _ "https://a.example/cb" _ _ rfl (by decide),
   c5_resolver_precedence.2.1 _ _ (by decide),
   c5_resolver_precedence.2.2.1 _,
   c5_resolver_precedence.2.2.2.2.1 _ _ (by decide)⟩

/-- C6 (counterexample): with a 2xx token exchange whose JSON body has an
`access_token` but no `refresh_token` field, and a succeeding channel fetch,
the handler emits the plain success redirect — not a
`missing_refresh_token` error redirect; no such error code exists in the
code. -/
theorem c6_no_missing_refresh_token_branch :
    handler cfgStd wSuccessNoRefresh reqStateApp = HandlerResult.redirect 302
      "https://app.example/cb?success=true&channel_id=UC123&channel_title=Demo+Channel&channel_thumbnail=https%3A%2F%2Ft.example%2Fx.png" ∧
    jsGetD tokBodyNoRefresh "refresh_token" = JSValue.jundef :=
  ⟨rfl, rfl⟩

/-- C6 (amended): the handler never inspects `refresh_token`: the callback
result depends on the token body only through its `access_token` member
(first conjunct), and the only missing-field condition distinguished on the
token path is a missing/falsy `access_token`, reported as `no_access_token`
(second conjunct). -/
theorem c6_refresh_token_not_inspected :
    (∀ (cfg : Config) (req : Request) (chf : FetchOutcome) (td td2 : JSValue),
      jsGetD td "access_token" = jsGetD td2 "access_token" →
      handleCallback cfg
        { tokenFetch := FetchOutcome.resp true (some td), channelFetch := chf } req =
      handleCallback cfg
        { tokenFetch := FetchOutcome.resp true (some td2), channelFetch := chf } req) ∧
    (∀ (cfg : Config) (req : Request) (chf : FetchOutcome) (td : JSValue) (cv : Option String),
      getCookieValue req.cookie "oauth_redirect_uri" = JsOut.value cv →
      jsTruthy (jsGetD td "access_token") = false →
      handleCallback cfg
        { tokenFetch := FetchOutcome.resp true (some td), channelFetch := chf } req =
      redirectWithError
        (resolveAppCallbackUri (decodedStateOf req.state) cv (fallbackRedirectUri cfg))
        "no_access_token" "No access token received" (fallbackRedirectUri cfg)) := by
  constructor
  · intro cfg req chf td td2 h
    unfold handleCallback
    simp only []
    simp [h]
  · intro cfg req chf td cv hcv hacc
    unfold handleCallback
    rw [hcv]
    simp [hacc]

/-- C6 (witness): adding a `refresh_token` to the token body does not change
the callback result, and a token body with no `access_token` produces the
`no_access_token` error redirect. -/
theorem c6_refresh_token_not_inspected_witness :
    handleCallback cfgStd wSuccessNoRefresh reqStateApp
      = handleCallback cfgStd wSuccessWithRefresh reqStateApp ∧
    handleCallback cfgStd
        { tokenFetch := FetchOutcome.resp true (some (JSValue.jobj [])),
          channelFetch := FetchOutcome.throw } reqStateApp
      = redirectWithError
          (resolveAppCallbackUri (decodedStateOf reqStateApp.state) none
            (fallbackRedirectUri cfgStd))
          "no_access_token" "No access token received" (fallbackRedirectUri cfgStd) :=
  ⟨c6_refresh_token_not_inspected.1 cfgStd reqStateApp
      (FetchOutcome.resp true (some chanBodyStd)) tokBodyNoRefresh tokBodyWithRefresh rfl,
   c6_refresh_token_not_inspected.2 cfgStd reqStateApp FetchOutcome.throw
      (JSValue.jobj []) none rfl rfl⟩

set_option maxRecDepth 10000 in
/-- C7 (counterexample): a GET whose query contains `error` with an empty
value together with `code=abc` is not classified as CALLBACK_ERROR: the
`if (error)` truthiness check fails on the empty string, the handler enters
the token-exchange path, and (the exchange responding non-2xx here) emits
`token_exchange_failed` — not the provider-error redirect. -/
theorem c7_empty_error_with_code_runs_exchange :
    handler cfgStd wTokenFail reqEmptyErrorWithCode = HandlerResult.redirect 302
      (defaultAppCallbackUri ++
        "?error=token_exchange_failed&error_description=Failed+to+complete+authorization") ∧
    handler cfgStd wTokenFail reqEmptyErrorWithCode ≠ HandlerResult.redirect 302
      (defaultAppCallbackUri ++ "?error=&error_description=OAuth+was+denied+or+failed") :=
  ⟨rfl, by decide⟩

/-- C7 (amended): for every GET whose query contains `error` with a nonempty
value, the handler classifies the request as CALLBACK_ERROR and emits the
provider-error redirect, even when `code` is also present: the (truthiness)
check of `error` precedes the check of `code`. -/
theorem c7_nonempty_error_checked_before_code (cfg : Config) (w : CallbackWorld)
    (req : Request) (e : String) (hm : req.method = "GET") (he : req.error = some e)
    (hne : e ≠ "") :
    handler cfg w req =
      redirectWithError
        (resolveErrorRedirect (decodedStateOf req.state) req.redirect_uri
          (fallbackRedirectUri cfg))
        e "OAuth was denied or failed" (fallbackRedirectUri cfg) := by
  unfold handler
  rw [hm, he]
  simp [truthyOpt, isEmpty_false_of_ne hne]

/-- C7 (witness): the amended classification evaluated on a GET carrying both
`error=access_denied` and `code=abc`. -/
theorem c7_nonempty_error_checked_before_code_witness :
    handler cfgStd wTokenFail reqErrorAndCode =
      redirectWithError
        (resolveErrorRedirect (decodedStateOf reqErrorAndCode.state)
          reqErrorAndCode.redirect_uri (fallbackRedirectUri cfgStd))
        "access_denied" "OAuth was denied or failed" (fallbackRedirectUri cfgStd) :=
  c7_nonempty_error_checked_before_code cfgStd wTokenFail reqErrorAndCode
    "access_denied" rfl rfl (by decide)

/-- C8: two `upsert` calls with the same account id leave exactly the second
credential under that id, and touch no other key of the store. -/
theorem c8_upsert_last_write_wins (s : TokenStore) (a : String)
    (c1 c2 : ChannelCredential) :
    (upsert (upsert s a c1) a c2) a = some c2 ∧
    ∀ k, k ≠ a → (upsert (upsert s a c1) a c2) k = s k := by
  constructor
  · simp [upsert]
  · intro k hk
    simp [upsert, hk]

/-- C8 (witness): the double upsert evaluated on the empty store. -/
theorem c8_upsert_last_write_wins_witness :
    (upsert (upsert emptyStore "UC123" credOld) "UC123" credNew) "UC123" = some credNew ∧
    (upsert (upsert emptyStore "UC123" credOld) "UC123" credNew) "UC999" = none :=
  ⟨(c8_upsert_last_write_wins emptyStore "UC123" credOld credNew).1,
   ((c8_upsert_last_write_wins emptyStore "UC123" credOld credNew).2 "UC999"
      (by decide)).trans rfl⟩

/-- C9: whenever at least one component of the pair is empty, the round trip
returns absent: the decoder demands both decoded fields truthy, and the empty
string is falsy. -/
theorem c9_empty_component_roundtrip_absent (r c : String) (h : r = "" ∨ c = "") :
    decodeState (encodeState r c) = none := by
  rw [decodeState_encodeState]
  rcases h with rfl | rfl
  · rfl
  · rw [show jsTruthy (JSValue.jstr "") = false from rfl, Bool.and_false]
    simp

/-- C9 (witness): the empty-component round trip evaluated at `("", "x")` and
`("y", "")`. -/
theorem c9_empty_component_roundtrip_absent_witness :
    decodeState (encodeState "" "x") = none ∧ decodeState (encodeState "y" "") = none :=
  ⟨c9_empty_component_roundtrip_absent "" "x" (Or.inl rfl),
   c9_empty_component_roundtrip_absent "y" "" (Or.inr rfl)⟩

/-- C10: both callback redirect URLs are built as the resolved URI, a literal
question mark, and the freshly serialized parameters (first two conjuncts:
the error emitter with a non-empty URI, and the success template); the
serializer never emits `?` (so nothing merges with `&`), hence for a URI that
already contains `?` the emitted URL counts one more `?` than the URI —
at least two separators (last two conjuncts). -/
theorem c10_redirect_url_concatenates_query (uri ec ed fb : String)
    (ps : List (String × String)) (hu : uri ≠ "") :
    redirectWithError uri ec ed fb = HandlerResult.redirect 302
      (uri ++ "?" ++ serializeParams [("error", ec), ("error_description", ed)]) ∧
    buildRedirectUrl uri ps = uri ++ "?" ++ serializeParams ps ∧
    (buildRedirectUrl uri ps).data.count '?' = uri.data.count '?' + 1 ∧
    ('?' ∈ uri.data → 2 ≤ (buildRedirectUrl uri ps).data.count '?') := by
  refine ⟨?_, rfl, count_qmark_buildRedirectUrl uri ps, ?_⟩
  · simp [redirectWithError, isEmpty_false_of_ne hu, buildRedirectUrl]
  · intro hq
    rw [count_qmark_buildRedirectUrl uri ps]
    have : 1 ≤ uri.data.count '?' := List.one_le_count_iff.mpr hq
    omega

/-- C10 (witness): the URL construction evaluated on a redirect URI that
already carries a query string. -/
theorem c10_redirect_url_concatenates_query_witness :
    redirectWithError "https://a.example/cb?x=1" "e1" "d1" "https://f.example"
      = HandlerResult.redirect 302
        ("https://a.example/cb?x=1" ++ "?" ++
          serializeParams [("error", "e1"), ("error_description", "d1")]) ∧
    2 ≤ (buildRedirectUrl "https://a.example/cb?x=1" [("success", "true")]).data.count '?' :=
  ⟨(c10_redirect_url_concatenates_query "https://a.example/cb?x=1" "e1" "d1"
      "https://f.example" [("success", "true")] (by decide)).1,
   (c10_redirect_url_concatenates_query "https://a.example/cb?x=1" "e1" "d1"
      "https://f.example" [("success", "true")] (by decide)).2.2.2 (by decide)⟩


end OAuthBridge
